import Mathlib

/-!
Shallow embedding of the wallet-extension key-management core:
the wallet-container data model (WalletContainer.ts), the Wallet
controller and its PublicController provider surface (Wallet.ts).
External collaborators (network registry, transaction preparation,
gas-price oracle, address derivation) are passed in explicitly as
function-valued environments.  Parts of the repository that are
imported by the controller but whose sources are absent (the
WalletRecordModel pure-update module, normalizeAddress,
resolveChainForTx, hasGasPrice) are modelled from the spec and
marked as such in their doc comments.
-/

/-- ASCII lowercasing, the model of the JavaScript toLowerCase calls
used for case-insensitive address comparison. -/
def lowercase (s : String) : String := String.mk (s.data.map Char.toLower)

/-- JavaScript truthiness of an optional string: `undefined`, `null`
and the empty string are falsy. -/
def strTruthy : Option String → Bool
  | none => false
  | some s => s ≠ ""

/-- The effect of `x || null` on an optional string field: an empty
string collapses to null. -/
def strOrNull : Option String → Option String
  | none => none
  | some s => if s = "" then none else some s

/-- Mnemonic data: a seed phrase together with a derivation path. -/
structure Mnemonic where
  phrase : String
  path : String
deriving DecidableEq, Repr

/-- BareWallet from model/types: address, privateKey, optional
mnemonic, optional name. -/
structure BareWallet where
  address : String
  privateKey : String
  mnemonic : Option Mnemonic
  name : Option String
deriving DecidableEq, Repr

/-- A partially specified wallet, the argument of restoreBareWallet
(Partial of BareWallet in the source). -/
structure PartialWallet where
  address : Option String
  privateKey : Option String
  mnemonic : Option Mnemonic
  name : Option String
deriving DecidableEq, Repr

/-- View of a full wallet as a partial one, as happens when a
serialized plain-object wallet is handed back to the restore
algorithm. -/
def BareWallet.toPartial (w : BareWallet) : PartialWallet :=
  { address := some w.address
    privateKey := some w.privateKey
    mnemonic := w.mnemonic
    name := w.name }

/-- Environment abstracting the ethers.js key-derivation calls used
by restoreBareWallet: derivation of an address from a private key,
of a wallet from a mnemonic, and fresh random wallet creation. -/
structure DerivEnv where
  addressOfPrivateKey : String → String
  walletOfMnemonic : Mnemonic → BareWallet
  randomWallet : BareWallet

/-- Embedding of fromEthersWallet composed with `new ethers.Wallet
(privateKey)`: a wallet derived from a bare private key carries no
mnemonic and no name. -/
def walletFromPrivateKey (env : DerivEnv) (privateKey : String) : BareWallet :=
  { address := env.addressOfPrivateKey privateKey
    privateKey := privateKey
    mnemonic := none
    name := none }

/-- restoreBareWallet from WalletContainer.ts: trust address and
privateKey as-is when both are (truthy) given, else derive from the
private key, else from the mnemonic, else create a random wallet.
The fallbacks `mnemonic || null` and `name || null` are kept exactly
(an empty-string name collapses to null). -/
def restoreBareWallet (env : DerivEnv) (w : PartialWallet) : BareWallet :=
  if strTruthy w.address ∧ strTruthy w.privateKey then
    { address := w.address.getD ""
      privateKey := w.privateKey.getD ""
      mnemonic := w.mnemonic
      name := strOrNull w.name }
  else if strTruthy w.privateKey then
    walletFromPrivateKey env (w.privateKey.getD "")
  else
    match w.mnemonic with
    | some m => env.walletOfMnemonic m
    | none => env.randomWallet

/-- Seed type tag of a wallet container. -/
inductive SeedType
  | mnemonic
  | privateKey
deriving DecidableEq, Repr

/-- The data of a wallet container: its seed type and its ordered
list of wallets. -/
structure WalletContainer where
  seedType : SeedType
  wallets : List BareWallet
deriving DecidableEq, Repr

/-- walletToObject from WalletContainer.ts, restricted to stored
plain wallets (stored wallets are plain objects produced by
restoreBareWallet, never live ethers.Wallet instances, so the
instanceof branch that nulls the name is not taken). -/
def walletToObject (w : BareWallet) : BareWallet :=
  { mnemonic := w.mnemonic
    privateKey := w.privateKey
    address := w.address
    name := w.name }

/-- WalletContainerImpl.toPlainObject: the serialization view keeps
the seed type and maps every wallet through walletToObject. -/
def WalletContainer.toPlainObject (c : WalletContainer) : WalletContainer :=
  { c with wallets := c.wallets.map walletToObject }

/-- WalletContainerImpl.getWalletByAddress: first wallet whose
address matches case-insensitively, or null. -/
def WalletContainer.getWalletByAddress (c : WalletContainer) (address : String) :
    Option BareWallet :=
  c.wallets.find? (fun w => lowercase w.address = lowercase address)

/-- Removal of the first wallet whose address matches
case-insensitively, the effect of the findIndex-plus-splice body of
WalletContainerImpl.removeWallet; when no wallet matches the list is
returned unchanged. -/
def removeWalletFromList (ws : List BareWallet) (address : String) :
    List BareWallet :=
  match ws with
  | [] => []
  | w :: rest =>
    if lowercase w.address = lowercase address then rest
    else w :: removeWalletFromList rest address

/-- WalletContainerImpl.removeWallet on the container view. -/
def WalletContainer.removeWallet (c : WalletContainer) (address : String) :
    WalletContainer :=
  { c with wallets := removeWalletFromList c.wallets address }

/-- Errors thrown by container construction and mutation. -/
inductive ContainerErr
  | expectedExactlyOneElement
  | privateKeyRequired
  | mnemonicRequired
  | cannotHaveMultipleWallets
deriving DecidableEq, Repr

/-- Descriptor accepted by the PrivateKeyWalletContainer constructor
(Pick of BareWallet at privateKey); an empty string stands for a
falsy private key. -/
structure PrivateKeyDescriptor where
  privateKey : String
deriving DecidableEq, Repr

/-- The PrivateKeyWalletContainer constructor: throws when the
wallets argument is nullish or has more than one element, then maps
each descriptor, throwing when its private key is falsy, and
otherwise restoring a wallet from `new ethers.Wallet(privateKey)`
(which reaches the trusted fast path of restoreBareWallet). -/
def mkPrivateKeyWalletContainer (env : DerivEnv)
    (wallets : Option (List PrivateKeyDescriptor)) :
    Except ContainerErr WalletContainer :=
  match wallets with
  | none => .error .expectedExactlyOneElement
  | some ws =>
    if ws.length > 1 then .error .expectedExactlyOneElement
    else do
      let bare ← ws.mapM (fun d =>
        if d.privateKey = "" then
          Except.error ContainerErr.privateKeyRequired
        else
          Except.ok (restoreBareWallet env
            (walletFromPrivateKey env d.privateKey).toPartial))
      return { seedType := SeedType.privateKey, wallets := bare }

/-- PrivateKeyWalletContainer.addWallet: unconditionally throws. -/
def privateKeyContainerAddWallet (_c : WalletContainer) (_w : BareWallet) :
    Except ContainerErr WalletContainer :=
  .error .cannotHaveMultipleWallets

/-- The MnemonicWalletContainer constructor from part_000: an absent
or empty wallets argument produces one freshly generated wallet;
otherwise every descriptor must carry a mnemonic and is restored. -/
def mkMnemonicWalletContainer (env : DerivEnv)
    (wallets : Option (List PartialWallet)) :
    Except ContainerErr WalletContainer :=
  match wallets with
  | none =>
    .ok { seedType := SeedType.mnemonic
          wallets := [restoreBareWallet env
            { address := none, privateKey := none
              mnemonic := none, name := none }] }
  | some ws =>
    if ws.isEmpty then
      .ok { seedType := SeedType.mnemonic
            wallets := [restoreBareWallet env
              { address := none, privateKey := none
                mnemonic := none, name := none }] }
    else do
      let bare ← ws.mapM (fun w =>
        match w.mnemonic with
        | none => Except.error ContainerErr.mnemonicRequired
        | some _ => Except.ok (restoreBareWallet env w))
      return { seedType := SeedType.mnemonic, wallets := bare }

/-! Wallet controller state and record model (Wallet.ts, part_001). -/

/-- Origin carried in a channel context: the trusted internal string
origin, the trusted internal symbol, or an arbitrary web origin
string. -/
inductive RpcOrigin
  | internal
  | internalSymbol
  | web (s : String)
deriving DecidableEq, Repr

/-- The channel context handed to every controller method. -/
structure ChannelCtx where
  origin : Option RpcOrigin
deriving DecidableEq, Repr

/-- JavaScript truthiness of a context origin: absent origins and
the empty web-origin string are falsy; both internal sentinels are
truthy values. -/
def originTruthy : Option RpcOrigin → Bool
  | none => false
  | some RpcOrigin.internal => true
  | some RpcOrigin.internalSymbol => true
  | some (RpcOrigin.web s) => s ≠ ""

/-- The string value of the INTERNAL_ORIGIN constant, used when a
context origin is read back as a string map key. -/
def INTERNAL_ORIGIN_STR : String := "chrome-extension://internal"

/-- The string key a context origin denotes when used to index the
per-origin maps.  The internal symbol never occurs as a map key in
any reachable call path and is given a placeholder. -/
def originKey : RpcOrigin → String
  | RpcOrigin.internal => INTERNAL_ORIGIN_STR
  | RpcOrigin.internalSymbol => ""
  | RpcOrigin.web s => s

/-- One entry of the permissions map: the addresses granted to an
origin and the optionally selected chain for that origin. -/
structure PermissionEntry where
  addresses : List String
  chain : Option String
deriving DecidableEq, Repr

/-- A wallet group: id and its wallet container. -/
structure WalletGroup where
  id : String
  walletContainer : WalletContainer
deriving DecidableEq, Repr

/-- The walletManager part of the record: groups plus the currently
selected address. -/
structure WalletManager where
  groups : List WalletGroup
  currentAddress : Option String
deriving DecidableEq, Repr

/-- The persisted wallet record: the wallet manager and the
per-origin permissions map (modelled as an association list keyed by
origin string). -/
structure WalletRecord where
  walletManager : WalletManager
  permissions : List (String × PermissionEntry)
deriving DecidableEq, Repr

/-- Lookup of the permission entry of an origin. -/
def permLookup (ps : List (String × PermissionEntry)) (o : String) :
    Option PermissionEntry :=
  (ps.find? (fun p => p.1 = o)).map (fun p => p.2)

/-- Whether the permission map of a (possibly absent) record lists
an address for an origin, the boolean read in allowedOrigin. -/
def permissionLists (record : Option WalletRecord) (origin address : String) :
    Bool :=
  match record with
  | none => false
  | some r =>
    match permLookup r.permissions origin with
    | none => false
    | some e => e.addresses.contains address

/-- The typed errors thrown by the controller. -/
inductive WalletErr
  | requiresContext
  | originNotAllowed
  | recordNotFound
  | sessionExpired
  | walletNotInitialized
  | fromMissing
  | fromMismatch
  | chainIdMismatch
  | invalidParams
  | invalidConfirmation
  | addressNotOwned
  | walletNotFound
  | groupNotFound
deriving DecidableEq, Repr

/-- Wallet.allowedOrigin: throws when the context or its origin is
falsy; the internal string origin is always authorized; any other
origin is authorized exactly when the permission map of the current
record lists the address for it (the internal symbol is never a key
of the string-keyed permissions map, hence never authorized here). -/
def allowedOrigin (record : Option WalletRecord) (context : Option ChannelCtx)
    (address : String) : Except WalletErr Bool :=
  match context with
  | none => .error .requiresContext
  | some ctx =>
    match ctx.origin with
    | none => .error .requiresContext
    | some RpcOrigin.internal => .ok true
    | some RpcOrigin.internalSymbol => .ok false
    | some (RpcOrigin.web s) =>
      if s = "" then .error .requiresContext
      else .ok (permissionLists record s address)

/-- Wallet.verifyInternalOrigin: accepts the internal string origin
and the internal symbol, throws OriginNotAllowed otherwise. -/
def verifyInternalOrigin (context : Option ChannelCtx) : Except WalletErr Unit :=
  match context with
  | some { origin := some RpcOrigin.internal } => .ok ()
  | some { origin := some RpcOrigin.internalSymbol } => .ok ()
  | _ => .error .originNotAllowed

/-- Wallet.readCurrentAddress: `record?.walletManager.currentAddress
|| null`, so an absent record, an unset address and an empty-string
address all read as null. -/
def readCurrentAddress (record : Option WalletRecord) : Option String :=
  match record with
  | none => none
  | some r => strOrNull r.walletManager.currentAddress

/-- Modelled from the spec: address normalization used for
case-insensitive address comparison (src/shared/normalizeAddress is
not among the sources; spec section 4.6 prescribes a
case-insensitive compare). -/
def normalizeAddress (a : String) : String := lowercase a

/-- Modelled from the spec: WalletRecordModel.getWalletByAddress of
the missing WalletRecord module; wallets are identified by address
with a case-insensitive compare across all groups. -/
def recordGetWalletByAddress (r : WalletRecord) (address : String) :
    Option BareWallet :=
  r.walletManager.groups.findSome?
    (fun g => g.walletContainer.getWalletByAddress address)

/-- Modelled from the spec: WalletRecordModel.getChainForOrigin of
the missing WalletRecord module; the per-origin chain map with an
unset origin resolving to the documented default chain (ethereum). -/
def recordGetChainForOrigin (r : WalletRecord) (origin : String) : String :=
  (Option.bind (permLookup r.permissions origin) (fun e => e.chain)).getD
    "ethereum"

/-- Modelled from the spec: WalletRecordModel.setCurrentAddress of
the missing WalletRecord module; fails if the address is not owned
by any group, else returns the record with the new current
address. -/
def recordSetCurrentAddress (r : WalletRecord) (address : String) :
    Except WalletErr WalletRecord :=
  if r.walletManager.groups.any (fun g =>
      g.walletContainer.wallets.any (fun w =>
        normalizeAddress w.address = normalizeAddress address)) then
    .ok { r with walletManager :=
          { r.walletManager with currentAddress := some address } }
  else .error .addressNotOwned

/-- Insertion of an address into the permission entry of an origin,
creating the entry when absent. -/
def permAddAddress (ps : List (String × PermissionEntry)) (o a : String) :
    List (String × PermissionEntry) :=
  if (ps.find? (fun p => p.1 = o)).isSome then
    ps.map (fun p =>
      if p.1 = o then
        (p.1, { p.2 with addresses :=
                if p.2.addresses.contains a then p.2.addresses
                else p.2.addresses ++ [a] })
      else p)
  else ps ++ [(o, { addresses := [a], chain := none })]

/-- Modelled from the spec: WalletRecordModel.addPermission of the
missing WalletRecord module; records the address under the origin in
the permissions map. -/
def recordAddPermission (r : WalletRecord) (origin address : String) :
    WalletRecord :=
  { r with permissions := permAddAddress r.permissions origin address }

/-- Update of the chain stored in the permission entry of an origin,
creating the entry when absent. -/
def permSetChain (ps : List (String × PermissionEntry)) (o c : String) :
    List (String × PermissionEntry) :=
  if (ps.find? (fun p => p.1 = o)).isSome then
    ps.map (fun p => if p.1 = o then (p.1, { p.2 with chain := some c }) else p)
  else ps ++ [(o, { addresses := [], chain := some c })]

/-- Modelled from the spec: WalletRecordModel.setChainForOrigin of
the missing WalletRecord module; updates the per-origin chain map. -/
def recordSetChainForOrigin (r : WalletRecord) (chain origin : String) :
    WalletRecord :=
  { r with permissions := permSetChain r.permissions origin chain }

/-- Modelled from the spec: WalletRecordModel.getPrivateKey of the
missing WalletRecord module; the private key of the wallet with the
given address. -/
def recordGetPrivateKey (r : WalletRecord) (address : String) :
    Except WalletErr String :=
  match recordGetWalletByAddress r address with
  | none => .error .walletNotFound
  | some w => .ok w.privateKey

/-- Modelled from the spec: WalletRecordModel.getRecoveryPhrase of
the missing WalletRecord module; the (decrypted) mnemonic of the
group with the given id — decryption with the session key is
abstracted away, the gating by a valid session key happens in the
controller before this call. -/
def recordGetRecoveryPhrase (r : WalletRecord) (groupId : String) :
    Except WalletErr Mnemonic :=
  match r.walletManager.groups.find? (fun g => g.id = groupId) with
  | none => .error .groupNotFound
  | some g =>
    match g.walletContainer.wallets with
    | [] => .error .groupNotFound
    | w :: _ =>
      match w.mnemonic with
      | none => .error .groupNotFound
      | some m => .ok m

/-! Session key lifecycle and reveal operations. -/

/-- The in-memory state of a Wallet controller instance that the
verified claims depend on: the main storage encryption key, the
ephemeral seed-phrase encryption key, the pending expiry deadline of
the one-shot expiry timer (absolute time, seconds), and the loaded
record. -/
structure WalletState where
  encryptionKey : Option String
  seedPhraseEncryptionKey : Option Nat
  seedPhraseExpiryDeadline : Option Nat
  record : Option WalletRecord
deriving DecidableEq, Repr

/-- Wallet.removeSeedPhraseEncryptionKey: drops the ephemeral key
(the pending timer is left alone; firing later is a no-op on an
already absent key). -/
def removeSeedPhraseEncryptionKey (st : WalletState) : WalletState :=
  { st with seedPhraseEncryptionKey := none }

/-- Wallet.setExpirationForSeedPhraseEncryptionKey: clears any
pending timer and schedules removal of the seed-phrase key 120
seconds from now (1000 * 120 milliseconds in the source). -/
def setExpirationForSeedPhraseEncryptionKey (st : WalletState) (now : Nat) :
    WalletState :=
  { st with seedPhraseExpiryDeadline := some (now + 120) }

/-- Wallet.updateCredentials: installs the storage key and the
seed-phrase key and (re)starts the expiry timer.  The subsequent
re-read of the record from the persistence gateway is external and
leaves the modelled record field unchanged. -/
def updateCredentials (st : WalletState) (encryptionKey : String)
    (seedPhraseEncryptionKey : Option Nat) (now : Nat) : WalletState :=
  setExpirationForSeedPhraseEncryptionKey
    { st with
      encryptionKey := some encryptionKey
      seedPhraseEncryptionKey := seedPhraseEncryptionKey }
    now

/-- The effect of the scheduled timer having fired by time `now`: if
a deadline is pending and has been reached, the seed-phrase key is
removed and the timer is spent. -/
def fireSeedPhraseExpiry (st : WalletState) (now : Nat) : WalletState :=
  match st.seedPhraseExpiryDeadline with
  | some d =>
    if d ≤ now then
      { st with seedPhraseEncryptionKey := none
                seedPhraseExpiryDeadline := none }
    else st
  | none => st

/-- Wallet.getPrivateKey observed at time `now` (any timer due by
`now` has fired): verify the internal origin, require a record,
require a live seed-phrase encryption key (else SessionExpired),
then read the private key through the record model.  The returned
state is the post-call state: the method itself never touches the
timer. -/
def walletGetPrivateKey (st : WalletState) (now : Nat)
    (context : Option ChannelCtx) (address : String) :
    Except WalletErr String × WalletState :=
  let st := fireSeedPhraseExpiry st now
  (do
    let _ ← verifyInternalOrigin context
    match st.record with
    | none => Except.error WalletErr.recordNotFound
    | some r =>
      match st.seedPhraseEncryptionKey with
      | none => Except.error WalletErr.sessionExpired
      | some _ => recordGetPrivateKey r address,
   st)

/-- Wallet.getRecoveryPhrase observed at time `now`, same gating as
walletGetPrivateKey but revealing the mnemonic of a group. -/
def walletGetRecoveryPhrase (st : WalletState) (now : Nat)
    (context : Option ChannelCtx) (groupId : String) :
    Except WalletErr Mnemonic × WalletState :=
  let st := fireSeedPhraseExpiry st now
  (do
    let _ ← verifyInternalOrigin context
    match st.record with
    | none => Except.error WalletErr.recordNotFound
    | some r =>
      match st.seedPhraseEncryptionKey with
      | none => Except.error WalletErr.sessionExpired
      | some _ => recordGetRecoveryPhrase r groupId,
   st)

/-! Transaction pipeline (Wallet.sendTransaction). -/

/-- An incoming transaction, with the fields the pipeline inspects:
the sender, the declared chain id (as a normalized value) and the
gas price. -/
structure IncomingTransaction where
  fromAddr : Option String
  chainId : Option Nat
  gasPrice : Option Nat
deriving DecidableEq, Repr

/-- Modelled from the spec: getTransactionChainId of the missing
resolveChainForTx module; the chain id declared on the transaction,
normalized to a value, or null when absent. -/
def getTransactionChainId (tx : IncomingTransaction) : Option Nat :=
  tx.chainId

/-- Modelled from the spec: hasGasPrice of the missing gasPrices
module; whether a gas price is already set on the transaction. -/
def hasGasPrice (tx : IncomingTransaction) : Bool :=
  tx.gasPrice.isSome

/-- The external network registry together with the external
transaction-preparation and gas-price collaborators. -/
structure NetworksEnv where
  getChainId : String → Nat
  getChainById : Nat → String
  prepareTransaction : IncomingTransaction → IncomingTransaction
  fetchAndAssignGasPrice : IncomingTransaction → IncomingTransaction

/-- Wallet.getChainIdForOrigin: the default wire chain id (0x1) when
no record is loaded, else the wire chain id of the chain selected
for the origin, resolved through the network registry. -/
def getChainIdForOrigin (env : NetworksEnv) (record : Option WalletRecord)
    (origin : String) : Nat :=
  match record with
  | none => 1
  | some r => env.getChainId (recordGetChainForOrigin r origin)

/-- The external calls the transaction pipeline makes, in order,
carrying the transaction object they were given. -/
inductive ExtCall
  | resolveChain (chainId : Nat)
  | prepare (tx : IncomingTransaction)
  | fetchGasPrice (tx : IncomingTransaction)
  | submit (tx : IncomingTransaction)
deriving DecidableEq, Repr

/-- Successful outcome of the pipeline: whether the missing-chainId
warning was recorded, and the transaction that was submitted. -/
structure SendOutcome where
  warnedMissingChainId : Bool
  response : IncomingTransaction
deriving DecidableEq, Repr

/-- Result of Wallet.sendTransaction: a typed failure or a success,
each together with the list of external calls made up to that
point. -/
inductive SendResult
  | failure (e : WalletErr) (calls : List ExtCall)
  | success (outcome : SendOutcome) (calls : List ExtCall)
deriving DecidableEq, Repr

/-- The tail of the pipeline after validation: normalize through the
preparation collaborator, fetch a gas price when none is set, build
the signer (requiring the current wallet to exist in the record) and
submit. -/
def sendTransactionRest (env : NetworksEnv) (record : Option WalletRecord)
    (tx : IncomingTransaction) (warned : Bool) (calls : List ExtCall)
    (currentAddress : String) : SendResult :=
  let transaction := env.prepareTransaction tx
  let calls := calls ++ [ExtCall.prepare tx]
  let (transaction, calls) :=
    if hasGasPrice transaction then (transaction, calls)
    else (env.fetchAndAssignGasPrice transaction,
          calls ++ [ExtCall.fetchGasPrice transaction])
  match record with
  | none => .failure .recordNotFound calls
  | some r =>
    match recordGetWalletByAddress r currentAddress with
    | none => .failure .walletNotInitialized calls
    | some _ =>
      .success { warnedMissingChainId := warned, response := transaction }
        (calls ++ [ExtCall.submit transaction])

/-- Wallet.sendTransaction: require the internal origin, require a
truthy `from` equal (case-insensitive) to the current address,
resolve the chain of the transaction origin, reject a declared chain
id different from the resolved one, fill an absent chain id with the
resolved one (recording a warning), then run the rest of the
pipeline. -/
def sendTransaction (env : NetworksEnv) (record : Option WalletRecord)
    (tx : IncomingTransaction) (context : Option ChannelCtx)
    (transactionOrigin : String) : SendResult :=
  match verifyInternalOrigin context with
  | .error e => .failure e []
  | .ok () =>
    if ¬ strTruthy tx.fromAddr then .failure .fromMissing []
    else
      match readCurrentAddress record with
      | none => .failure .walletNotInitialized []
      | some currentAddress =>
        if normalizeAddress (tx.fromAddr.getD "") ≠
            normalizeAddress currentAddress then
          .failure .fromMismatch []
        else
          let chainId := getChainIdForOrigin env record transactionOrigin
          let calls := [ExtCall.resolveChain chainId]
          match getTransactionChainId tx with
          | some target =>
            if chainId ≠ target then .failure .chainIdMismatch calls
            else sendTransactionRest env record tx false calls currentAddress
          | none =>
            sendTransactionRest env record { tx with chainId := some chainId }
              true calls currentAddress

/-! PublicController provider methods. -/

/-- Events emitted on the internal notification channel by the
modelled controller methods. -/
inductive WEvent
  | chainChanged (chain : String) (origin : String)
  | currentAddressChange (addresses : List String)
  | permissionsUpdated
  | openedConfirmation (route : String)
deriving DecidableEq, Repr

/-- PublicController.eth_accounts: the empty list when no current
address is set, else the one-element list with the current address
when allowedOrigin authorizes the calling context for it, else the
empty list (errors of allowedOrigin propagate). -/
def eth_accounts (record : Option WalletRecord) (context : Option ChannelCtx) :
    Except WalletErr (List String) :=
  match readCurrentAddress record with
  | none => .ok []
  | some currentAddress =>
    match allowedOrigin record context currentAddress with
    | .error e => .error e
    | .ok true => .ok [currentAddress]
    | .ok false => .ok []

/-- Wallet.setChainForOrigin: requires a record, updates the
per-origin chain through the record model, and emits a chainChanged
event (the persistence write is external). -/
def setChainForOrigin (record : Option WalletRecord) (chain origin : String) :
    Except WalletErr (WalletRecord × List WEvent) :=
  match record with
  | none => .error .recordNotFound
  | some r =>
    .ok (recordSetChainForOrigin r chain origin,
         [WEvent.chainChanged chain origin])

/-- PublicController.wallet_switchEthereumChain: requires an
initialized current address and permission of the calling origin for
it; a requested chain id equal to the chain currently resolved for
the origin returns success with no record change and no event; a
different chain id switches the chain of the origin immediately (no
confirmation window) and emits chainChanged.  The JSON result is
null in both success branches; the returned pair is the new record
and the emitted events. -/
def wallet_switchEthereumChain (env : NetworksEnv)
    (record : Option WalletRecord) (context : Option ChannelCtx)
    (chainIdParameter : Nat) :
    Except WalletErr (Option WalletRecord × List WEvent) :=
  match readCurrentAddress record with
  | none => .error .walletNotInitialized
  | some currentAddress =>
    match allowedOrigin record context currentAddress with
    | .error e => .error e
    | .ok false => .error .originNotAllowed
    | .ok true =>
      match context with
      | some { origin := some o } =>
        let origin := originKey o
        let chainId := chainIdParameter
        let currentChainIdForThisOrigin :=
          getChainIdForOrigin env record origin
        if chainId = currentChainIdForThisOrigin then
          .ok (record, [])
        else
          let chain := env.getChainById chainId
          match setChainForOrigin record chain origin with
          | .error e => .error e
          | .ok (r2, events) => .ok (some r2, events)
      | _ => .error .requiresContext

/-- Wallet.setCurrentAddress as a method: verify the internal
origin, require a record, update through the record model, emit
currentAddressChange with the (truthy-filtered) new current
address. -/
def setCurrentAddressMethod (record : Option WalletRecord)
    (context : Option ChannelCtx) (address : String) :
    Except WalletErr (WalletRecord × List WEvent) :=
  match verifyInternalOrigin context with
  | .error e => .error e
  | .ok () =>
    match record with
    | none => .error .recordNotFound
    | some r =>
      match recordSetCurrentAddress r address with
      | .error e => .error e
      | .ok r2 =>
        .ok (r2, [WEvent.currentAddressChange
          ((strOrNull r2.walletManager.currentAddress).toList)])

/-- Wallet.acceptOrigin: requires a record, records the permission
through the record model and emits permissionsUpdated. -/
def acceptOrigin (record : Option WalletRecord) (origin address : String) :
    Except WalletErr (WalletRecord × List WEvent) :=
  match record with
  | none => .error .recordNotFound
  | some r => .ok (recordAddPermission r origin address,
                   [WEvent.permissionsUpdated])

/-- The onResolve handler of the confirmation window opened by
PublicController.eth_requestAccounts, applied when the gateway
approves the request with an address: a falsy address is rejected;
when the approved address differs (case-insensitive) from the
current address, the current address is switched first (under the
internal symbol context) and only then is the origin permission
recorded; when it is equal, only the permission is recorded. -/
def handleRequestAccountsApproval (record : Option WalletRecord)
    (webOrigin : String) (address : String) :
    Except WalletErr (WalletRecord × List WEvent) :=
  if address = "" then .error .invalidConfirmation
  else
    match readCurrentAddress record with
    | none => .error .walletNotInitialized
    | some currentAddress =>
      if normalizeAddress address ≠ normalizeAddress currentAddress then
        match setCurrentAddressMethod record
            (some { origin := some RpcOrigin.internalSymbol }) address with
        | .error e => .error e
        | .ok (r2, events1) =>
          match acceptOrigin (some r2) webOrigin address with
          | .error e => .error e
          | .ok (r3, events2) => .ok (r3, events1 ++ events2)
      else
        match acceptOrigin record webOrigin address with
        | .error e => .error e
        | .ok (r3, events2) => .ok (r3, events2)

/-! Concrete sample data used to instantiate the theorems. -/

/-- A concrete derivation environment for evaluation. -/
def envSample : DerivEnv :=
  { addressOfPrivateKey := fun _ => "0xDerived"
    walletOfMnemonic := fun m =>
      { address := "0xFromMnemonic", privateKey := "0xmk"
        mnemonic := some m, name := none }
    randomWallet :=
      { address := "0xRandom", privateKey := "0xrk"
        mnemonic := some { phrase := "r r r", path := "m/44" }, name := none } }

/-- A concrete network environment for evaluation. -/
def netSample : NetworksEnv :=
  { getChainId := fun c => if c = "ethereum" then 1
      else if c = "polygon" then 137 else 0
    getChainById := fun n => if n = 1 then "ethereum"
      else if n = 137 then "polygon" else "unknown"
    prepareTransaction := fun tx => tx
    fetchAndAssignGasPrice := fun tx => { tx with gasPrice := some 7 } }

/-- A concrete wallet for evaluation. -/
def wSample : BareWallet :=
  { address := "0xAbC1", privateKey := "0xK1"
    mnemonic := some { phrase := "alpha beta", path := "m/44/60/0/0/0" }
    name := some "Main" }

/-- A concrete record with one mnemonic group, a selected address
and one permitted web origin whose selected chain is polygon. -/
def recSample : WalletRecord :=
  { walletManager :=
      { groups := [{ id := "g1", walletContainer :=
          { seedType := SeedType.mnemonic, wallets := [wSample] } }]
        currentAddress := some "0xAbC1" }
    permissions :=
      [("https://app.example",
        { addresses := ["0xAbC1"], chain := some "polygon" })] }

/-- A concrete wallet whose name is present but empty. -/
def wEmptyName : BareWallet :=
  { address := "0xAbC1", privateKey := "0xK1", mnemonic := none
    name := some "" }

/-- A second concrete wallet in the sample record, initially not
the current address. -/
def wSample2 : BareWallet :=
  { address := "0xDdD2", privateKey := "0xK2"
    mnemonic := some { phrase := "gamma delta", path := "m/44/60/0/0/1" }
    name := none }

/-- A concrete record owning two addresses, used to exercise the
current-address switch on approval. -/
def recSample2 : WalletRecord :=
  { walletManager :=
      { groups := [{ id := "g1", walletContainer :=
          { seedType := SeedType.mnemonic, wallets := [wSample, wSample2] } }]
        currentAddress := some "0xAbC1" }
    permissions :=
      [("https://app.example",
        { addresses := ["0xAbC1"], chain := some "polygon" })] }

/-! Claim theorems. -/

/-- C1: for a context whose origin is the internal sentinel,
allowedOrigin returns true for every address; for a web origin it
returns true exactly when the permission map lists the address for
that origin; the internal symbol origin is never listed in the
string-keyed map and yields false. -/
theorem allowedOrigin_internal_always_web_by_permission
    (record : Option WalletRecord) (address s : String) (hs : s ≠ "") :
    allowedOrigin record (some { origin := some RpcOrigin.internal }) address
        = .ok true
    ∧ (allowedOrigin record (some { origin := some (RpcOrigin.web s) }) address
          = .ok true
        ↔ permissionLists record s address = true)
    ∧ allowedOrigin record (some { origin := some RpcOrigin.internalSymbol })
        address = .ok false := by
  refine ⟨rfl, ?_, rfl⟩
  simp [allowedOrigin, hs]

/-- Witness for C1 at a concrete record, address and origin. -/
theorem allowedOrigin_internal_always_web_by_permission_witness :
    allowedOrigin (some recSample)
        (some { origin := some RpcOrigin.internal }) "0xNeverGranted"
      = .ok true
    ∧ (allowedOrigin (some recSample)
          (some { origin := some (RpcOrigin.web "https://app.example") })
          "0xNeverGranted" = .ok true
        ↔ permissionLists (some recSample) "https://app.example"
            "0xNeverGranted" = true)
    ∧ allowedOrigin (some recSample)
        (some { origin := some RpcOrigin.internalSymbol }) "0xNeverGranted"
      = .ok false :=
  allowedOrigin_internal_always_web_by_permission (some recSample)
    "0xNeverGranted" "https://app.example" (by decide)

/-- Removal is invariant under case changes of the argument. -/
theorem removeWalletFromList_congr (ws : List BareWallet) (a b : String)
    (hab : lowercase a = lowercase b) :
    removeWalletFromList ws a = removeWalletFromList ws b := by
  induction ws with
  | nil => rfl
  | cons w rest ih =>
    simp only [removeWalletFromList, hab, ih]

/-- Removal of an address no wallet carries is the identity. -/
theorem removeWalletFromList_absent (ws : List BareWallet) (a : String)
    (h : ∀ w ∈ ws, lowercase w.address ≠ lowercase a) :
    removeWalletFromList ws a = ws := by
  induction ws with
  | nil => rfl
  | cons w rest ih =>
    have hw := h w (List.mem_cons_self w rest)
    simp only [removeWalletFromList, if_neg hw]
    rw [ih (fun x hx => h x (List.mem_cons_of_mem w hx))]

/-- C9: getWalletByAddress and removeWallet compare addresses
case-insensitively, and removing an address absent from the
container (case-insensitive) leaves it unchanged. -/
theorem container_lookup_and_removal_case_insensitive
    (c : WalletContainer) (a b : String) (hab : lowercase a = lowercase b) :
    (c.getWalletByAddress a = c.getWalletByAddress b
      ∧ c.removeWallet a = c.removeWallet b)
    ∧ ((∀ w ∈ c.wallets, lowercase w.address ≠ lowercase a) →
        c.removeWallet a = c) := by
  refine ⟨⟨?_, ?_⟩, ?_⟩
  · simp only [WalletContainer.getWalletByAddress, hab]
  · simp only [WalletContainer.removeWallet,
      removeWalletFromList_congr c.wallets a b hab]
  · intro h
    simp only [WalletContainer.removeWallet,
      removeWalletFromList_absent c.wallets a h]

/-- Witness for C9 at a concrete container and addresses. -/
theorem container_lookup_and_removal_case_insensitive_witness :
    WalletContainer.getWalletByAddress
        { seedType := SeedType.mnemonic, wallets := [wSample] } "0xABC1"
      = WalletContainer.getWalletByAddress
        { seedType := SeedType.mnemonic, wallets := [wSample] } "0xabc1"
    ∧ WalletContainer.removeWallet
        { seedType := SeedType.mnemonic, wallets := [wSample] } "0xABC1"
      = WalletContainer.removeWallet
        { seedType := SeedType.mnemonic, wallets := [wSample] } "0xabc1"
    ∧ WalletContainer.removeWallet
        { seedType := SeedType.mnemonic, wallets := [wSample] } "0xZZ99"
      = { seedType := SeedType.mnemonic, wallets := [wSample] } :=
  ⟨(container_lookup_and_removal_case_insensitive
      { seedType := SeedType.mnemonic, wallets := [wSample] } "0xABC1" "0xabc1"
      (by decide)).1.1,
   (container_lookup_and_removal_case_insensitive
      { seedType := SeedType.mnemonic, wallets := [wSample] } "0xABC1" "0xabc1"
      (by decide)).1.2,
   (container_lookup_and_removal_case_insensitive
      { seedType := SeedType.mnemonic, wallets := [wSample] } "0xZZ99" "0xzz99"
      (by decide)).2 (by decide)⟩

/-- C5 (failing-input evaluation): the PrivateKeyWalletContainer
constructor accepts an empty descriptor array and produces a
container with zero wallets, while a two-element array is rejected
and addWallet on the container always fails. -/
theorem privateKeyContainer_accepts_empty_input :
    mkPrivateKeyWalletContainer envSample (some [])
      = .ok { seedType := SeedType.privateKey, wallets := [] }
    ∧ mkPrivateKeyWalletContainer envSample
        (some [{ privateKey := "0xK1" }, { privateKey := "0xK2" }])
      = .error .expectedExactlyOneElement
    ∧ privateKeyContainerAddWallet
        { seedType := SeedType.privateKey, wallets := [] } wSample
      = .error .cannotHaveMultipleWallets :=
  ⟨rfl, rfl, rfl⟩

/-- C8 counterexample: serializing a container holding a wallet
whose name is the (present) empty string and restoring it does not
preserve the name field — the restore algorithm collapses it to
null. -/
theorem roundTrip_drops_present_empty_name :
    (WalletContainer.toPlainObject
        { seedType := SeedType.privateKey, wallets := [wEmptyName] }).wallets.map
        (fun x => restoreBareWallet envSample x.toPartial)
      = [{ wEmptyName with name := none }]
    ∧ wEmptyName.name = some ""
    ∧ (restoreBareWallet envSample (walletToObject wEmptyName).toPartial).name
        ≠ wEmptyName.name := by
  refine ⟨?_, rfl, ?_⟩ <;> decide

/-- C8 amended: serializing a WalletContainer via toPlainObject and
restoring each wallet yields wallets with identical addresses,
private keys and mnemonics (the mnemonic preserved exactly whenever
present), and the name preserved exactly when present and non-empty;
an empty-string name is restored as null. -/
theorem roundTrip_preserves_wallets_up_to_empty_name
    (env : DerivEnv) (c : WalletContainer)
    (h : ∀ w ∈ c.wallets, w.address ≠ "" ∧ w.privateKey ≠ "") :
    (WalletContainer.toPlainObject c).wallets.map
        (fun x => restoreBareWallet env x.toPartial)
      = c.wallets.map (fun w => { w with name := strOrNull w.name }) := by
  unfold WalletContainer.toPlainObject
  simp only [List.map_map]
  apply List.map_congr_left
  intro w hw
  obtain ⟨ha, hp⟩ := h w hw
  simp [Function.comp, walletToObject, BareWallet.toPartial,
    restoreBareWallet, strTruthy, ha, hp]

/-- Witness for the amended C8 at a concrete container. -/
theorem roundTrip_preserves_wallets_up_to_empty_name_witness :
    (WalletContainer.toPlainObject
        { seedType := SeedType.mnemonic, wallets := [wSample] }).wallets.map
        (fun x => restoreBareWallet envSample x.toPartial)
      = (WalletContainer.mk SeedType.mnemonic [wSample]).wallets.map
          (fun w => { w with name := strOrNull w.name }) :=
  roundTrip_preserves_wallets_up_to_empty_name envSample
    { seedType := SeedType.mnemonic, wallets := [wSample] } (by decide)

/-- C2: once 120 seconds have elapsed since the seed-phrase key was
last set by updateCredentials, or after an explicit clear, both
reveal operations fail with SessionExpired while the main storage
encryption key is still held; a reveal call never moves the expiry
deadline, which is reset only by re-establishing credentials. -/
theorem reveal_fails_after_timeout_or_clear
    (st : WalletState) (ek : String) (k : Nat) (t0 now : Nat)
    (context : Option ChannelCtx) (address groupId : String)
    (r : WalletRecord)
    (hctx : verifyInternalOrigin context = .ok ())
    (hrec : st.record = some r) :
    (t0 + 120 ≤ now →
        (walletGetPrivateKey (updateCredentials st ek (some k) t0) now
            context address).1 = .error .sessionExpired
      ∧ (walletGetRecoveryPhrase (updateCredentials st ek (some k) t0) now
            context groupId).1 = .error .sessionExpired
      ∧ (walletGetPrivateKey (updateCredentials st ek (some k) t0) now
            context address).2.encryptionKey = some ek)
    ∧ ((walletGetPrivateKey
          (removeSeedPhraseEncryptionKey (updateCredentials st ek (some k) t0))
          now context address).1 = .error .sessionExpired
      ∧ (walletGetRecoveryPhrase
          (removeSeedPhraseEncryptionKey (updateCredentials st ek (some k) t0))
          now context groupId).1 = .error .sessionExpired)
    ∧ (now < t0 + 120 →
        (walletGetPrivateKey (updateCredentials st ek (some k) t0) now
            context address).2.seedPhraseExpiryDeadline = some (t0 + 120)) := by
  refine ⟨fun hle => ⟨?_, ?_, ?_⟩, ⟨?_, ?_⟩, fun hlt => ?_⟩
  · simp only [walletGetPrivateKey, updateCredentials,
      setExpirationForSeedPhraseEncryptionKey, fireSeedPhraseExpiry,
      if_pos hle, hctx, hrec]
    rfl
  · simp only [walletGetRecoveryPhrase, updateCredentials,
      setExpirationForSeedPhraseEncryptionKey, fireSeedPhraseExpiry,
      if_pos hle, hctx, hrec]
    rfl
  · simp only [walletGetPrivateKey, updateCredentials,
      setExpirationForSeedPhraseEncryptionKey, fireSeedPhraseExpiry,
      if_pos hle]
  · by_cases hle : t0 + 120 ≤ now <;>
      · simp only [walletGetPrivateKey, removeSeedPhraseEncryptionKey,
          updateCredentials, setExpirationForSeedPhraseEncryptionKey,
          fireSeedPhraseExpiry, hle, if_true, if_false, hctx, hrec]
        rfl
  · by_cases hle : t0 + 120 ≤ now <;>
      · simp only [walletGetRecoveryPhrase, removeSeedPhraseEncryptionKey,
          updateCredentials, setExpirationForSeedPhraseEncryptionKey,
          fireSeedPhraseExpiry, hle, if_true, if_false, hctx, hrec]
        rfl
  · simp only [walletGetPrivateKey, updateCredentials,
      setExpirationForSeedPhraseEncryptionKey, fireSeedPhraseExpiry,
      if_neg (Nat.not_le.mpr hlt)]

/-- Witness for C2 at a concrete state, time and context. -/
theorem reveal_fails_after_timeout_or_clear_witness :
    (walletGetPrivateKey
        (updateCredentials
          { encryptionKey := none, seedPhraseEncryptionKey := none
            seedPhraseExpiryDeadline := none, record := some recSample }
          "mainKey" (some 42) 0) 120
        (some { origin := some RpcOrigin.internal }) "0xAbC1").1
      = .error .sessionExpired
    ∧ (walletGetRecoveryPhrase
        (updateCredentials
          { encryptionKey := none, seedPhraseEncryptionKey := none
            seedPhraseExpiryDeadline := none, record := some recSample }
          "mainKey" (some 42) 0) 120
        (some { origin := some RpcOrigin.internal }) "g1").1
      = .error .sessionExpired
    ∧ (walletGetPrivateKey
        (updateCredentials
          { encryptionKey := none, seedPhraseEncryptionKey := none
            seedPhraseExpiryDeadline := none, record := some recSample }
          "mainKey" (some 42) 0) 120
        (some { origin := some RpcOrigin.internal }) "0xAbC1").2.encryptionKey
      = some "mainKey"
    ∧ (walletGetPrivateKey
        (removeSeedPhraseEncryptionKey
          (updateCredentials
            { encryptionKey := none, seedPhraseEncryptionKey := none
              seedPhraseExpiryDeadline := none, record := some recSample }
            "mainKey" (some 42) 0)) 60
        (some { origin := some RpcOrigin.internal }) "0xAbC1").1
      = .error .sessionExpired
    ∧ (walletGetPrivateKey
        (updateCredentials
          { encryptionKey := none, seedPhraseEncryptionKey := none
            seedPhraseExpiryDeadline := none, record := some recSample }
          "mainKey" (some 42) 0) 60
        (some { origin := some RpcOrigin.internal }) "0xAbC1").2.seedPhraseExpiryDeadline
      = some (0 + 120) :=
  ⟨((reveal_fails_after_timeout_or_clear
      { encryptionKey := none, seedPhraseEncryptionKey := none
        seedPhraseExpiryDeadline := none, record := some recSample }
      "mainKey" 42 0 120 (some { origin := some RpcOrigin.internal })
      "0xAbC1" "g1" recSample rfl rfl).1 (by decide)).1,
   ((reveal_fails_after_timeout_or_clear
      { encryptionKey := none, seedPhraseEncryptionKey := none
        seedPhraseExpiryDeadline := none, record := some recSample }
      "mainKey" 42 0 120 (some { origin := some RpcOrigin.internal })
      "0xAbC1" "g1" recSample rfl rfl).1 (by decide)).2.1,
   ((reveal_fails_after_timeout_or_clear
      { encryptionKey := none, seedPhraseEncryptionKey := none
        seedPhraseExpiryDeadline := none, record := some recSample }
      "mainKey" 42 0 120 (some { origin := some RpcOrigin.internal })
      "0xAbC1" "g1" recSample rfl rfl).1 (by decide)).2.2,
   (reveal_fails_after_timeout_or_clear
      { encryptionKey := none, seedPhraseEncryptionKey := none
        seedPhraseExpiryDeadline := none, record := some recSample }
      "mainKey" 42 0 60 (some { origin := some RpcOrigin.internal })
      "0xAbC1" "g1" recSample rfl rfl).2.1.1,
   (reveal_fails_after_timeout_or_clear
      { encryptionKey := none, seedPhraseEncryptionKey := none
        seedPhraseExpiryDeadline := none, record := some recSample }
      "mainKey" 42 0 60 (some { origin := some RpcOrigin.internal })
      "0xAbC1" "g1" recSample rfl rfl).2.2 (by decide)⟩

/-- C3: sendTransaction fails when the `from` field is missing (or
JS-falsy), and when `from` differs case-insensitively from the
current address; in both cases the failure happens with an empty
external-call trace, before any network, gas-price or signing
call. -/
theorem sendTransaction_rejects_bad_from
    (env : NetworksEnv) (record : Option WalletRecord)
    (tx : IncomingTransaction) (context : Option ChannelCtx)
    (transactionOrigin : String)
    (hctx : verifyInternalOrigin context = .ok ()) :
    (strTruthy tx.fromAddr = false →
      sendTransaction env record tx context transactionOrigin
        = .failure .fromMissing [])
    ∧ (∀ f a, tx.fromAddr = some f → f ≠ "" →
        readCurrentAddress record = some a →
        normalizeAddress f ≠ normalizeAddress a →
        sendTransaction env record tx context transactionOrigin
          = .failure .fromMismatch []) := by
  constructor
  · intro hmiss
    simp [sendTransaction, hctx, hmiss]
  · intro f a hf hfne hcur hne
    simp [sendTransaction, hctx, hf, strTruthy, hfne, hcur, hne]

/-- Witness for C3 at a concrete environment, record and calls. -/
theorem sendTransaction_rejects_bad_from_witness :
    sendTransaction netSample (some recSample)
        { fromAddr := none, chainId := none, gasPrice := none }
        (some { origin := some RpcOrigin.internal }) "https://app.example"
      = .failure .fromMissing []
    ∧ sendTransaction netSample (some recSample)
        { fromAddr := some "0xEvil", chainId := none, gasPrice := none }
        (some { origin := some RpcOrigin.internal }) "https://app.example"
      = .failure .fromMismatch [] :=
  ⟨(sendTransaction_rejects_bad_from netSample (some recSample)
      { fromAddr := none, chainId := none, gasPrice := none }
      (some { origin := some RpcOrigin.internal }) "https://app.example"
      rfl).1 rfl,
   (sendTransaction_rejects_bad_from netSample (some recSample)
      { fromAddr := some "0xEvil", chainId := none, gasPrice := none }
      (some { origin := some RpcOrigin.internal }) "https://app.example"
      rfl).2 "0xEvil" "0xAbC1" rfl (by decide) rfl (by decide)⟩

/-- C4: with a valid `from`, sendTransaction fails when the declared
transaction chain id differs from the chain resolved for the
transaction origin, and when the chain id is absent it records a
warning, fills the field with the resolved chain id (visible in the
transaction handed to the preparation collaborator) and proceeds to
a successful submission. -/
theorem sendTransaction_chainId_gate
    (env : NetworksEnv) (record : Option WalletRecord) (r : WalletRecord)
    (tx : IncomingTransaction) (context : Option ChannelCtx)
    (transactionOrigin f a : String)
    (hctx : verifyInternalOrigin context = .ok ())
    (hrec : record = some r)
    (hf : tx.fromAddr = some f) (hfne : f ≠ "")
    (hcur : readCurrentAddress record = some a)
    (hmatch : normalizeAddress f = normalizeAddress a) :
    (∀ t, getTransactionChainId tx = some t →
      getChainIdForOrigin env record transactionOrigin ≠ t →
      sendTransaction env record tx context transactionOrigin
        = .failure .chainIdMismatch
            [ExtCall.resolveChain (getChainIdForOrigin env record transactionOrigin)])
    ∧ (getTransactionChainId tx = none →
       recordGetWalletByAddress r a ≠ none →
       ∃ out calls,
         sendTransaction env record tx context transactionOrigin
           = .success out calls
         ∧ out.warnedMissingChainId = true
         ∧ ExtCall.prepare
             { tx with chainId := some (getChainIdForOrigin env record transactionOrigin) }
             ∈ calls) := by
  subst hrec
  obtain ⟨txf, txc, txg⟩ := tx
  obtain rfl : txf = some f := hf
  constructor
  · intro t ht hne
    obtain rfl : txc = some t := ht
    simp [sendTransaction, hctx, strTruthy, hfne, hcur, hmatch,
      getTransactionChainId, hne]
  · intro hnone hw
    obtain rfl : txc = none := hnone
    obtain ⟨w, hwsome⟩ := Option.ne_none_iff_exists'.mp hw
    by_cases hg :
      hasGasPrice (env.prepareTransaction
        ⟨some f, some (getChainIdForOrigin env (some r) transactionOrigin), txg⟩) = true
    · refine ⟨⟨true, env.prepareTransaction ⟨some f, some (getChainIdForOrigin env (some r) transactionOrigin), txg⟩⟩,
        [ExtCall.resolveChain (getChainIdForOrigin env (some r) transactionOrigin),
         ExtCall.prepare ⟨some f, some (getChainIdForOrigin env (some r) transactionOrigin), txg⟩,
         ExtCall.submit (env.prepareTransaction ⟨some f, some (getChainIdForOrigin env (some r) transactionOrigin), txg⟩)],
        ?_, rfl, ?_⟩
      · simp [sendTransaction, hctx, strTruthy, hfne, hcur, hmatch,
          getTransactionChainId, sendTransactionRest, hg, hwsome]
      · simp
    · refine ⟨⟨true, env.fetchAndAssignGasPrice (env.prepareTransaction ⟨some f, some (getChainIdForOrigin env (some r) transactionOrigin), txg⟩)⟩,
        [ExtCall.resolveChain (getChainIdForOrigin env (some r) transactionOrigin),
         ExtCall.prepare ⟨some f, some (getChainIdForOrigin env (some r) transactionOrigin), txg⟩,
         ExtCall.fetchGasPrice (env.prepareTransaction ⟨some f, some (getChainIdForOrigin env (some r) transactionOrigin), txg⟩),
         ExtCall.submit (env.fetchAndAssignGasPrice (env.prepareTransaction ⟨some f, some (getChainIdForOrigin env (some r) transactionOrigin), txg⟩))],
        ?_, rfl, ?_⟩
      · simp [sendTransaction, hctx, strTruthy, hfne, hcur, hmatch,
          getTransactionChainId, sendTransactionRest, hg, hwsome]
      · simp

/-- Witness for C4 at a concrete environment, record and
transactions (the chain resolved for the sample origin is polygon,
wire id 137). -/
theorem sendTransaction_chainId_gate_witness :
    sendTransaction netSample (some recSample)
        { fromAddr := some "0xabc1", chainId := some 1, gasPrice := none }
        (some { origin := some RpcOrigin.internal }) "https://app.example"
      = .failure .chainIdMismatch [ExtCall.resolveChain 137]
    ∧ ∃ out calls,
        sendTransaction netSample (some recSample)
            { fromAddr := some "0xabc1", chainId := none, gasPrice := none }
            (some { origin := some RpcOrigin.internal }) "https://app.example"
          = .success out calls
        ∧ out.warnedMissingChainId = true
        ∧ ExtCall.prepare
            { fromAddr := some "0xabc1", chainId := some 137, gasPrice := none }
            ∈ calls :=
  ⟨(sendTransaction_chainId_gate netSample (some recSample) recSample
      { fromAddr := some "0xabc1", chainId := some 1, gasPrice := none }
      (some { origin := some RpcOrigin.internal }) "https://app.example"
      "0xabc1" "0xAbC1" rfl rfl rfl (by decide) rfl (by decide)).1
      1 rfl (by decide),
   (sendTransaction_chainId_gate netSample (some recSample) recSample
      { fromAddr := some "0xabc1", chainId := none, gasPrice := none }
      (some { origin := some RpcOrigin.internal }) "https://app.example"
      "0xabc1" "0xAbC1" rfl rfl rfl (by decide) rfl (by decide)).2
      rfl (by decide)⟩

/-- C6: eth_accounts returns the empty list when no current address
is set; with a current address it returns the one-element list with
that address for the internal sentinel, and for a web origin exactly
when the permission map lists the address for it, the empty list
otherwise. -/
theorem eth_accounts_permission_gated
    (record : Option WalletRecord) (context : Option ChannelCtx)
    (a s : String) (hs : s ≠ "") :
    (readCurrentAddress record = none →
      eth_accounts record context = .ok [])
    ∧ (readCurrentAddress record = some a →
        eth_accounts record (some { origin := some RpcOrigin.internal })
          = .ok [a])
    ∧ (readCurrentAddress record = some a →
        eth_accounts record (some { origin := some (RpcOrigin.web s) })
          = .ok (if permissionLists record s a then [a] else [])) := by
  refine ⟨fun hnone => ?_, fun hcur => ?_, fun hcur => ?_⟩
  · simp [eth_accounts, hnone]
  · simp [eth_accounts, hcur, allowedOrigin]
  · by_cases hp : permissionLists record s a <;>
      simp [eth_accounts, hcur, allowedOrigin, hs, hp]

/-- Witness for C6 at a concrete record and origins. -/
theorem eth_accounts_permission_gated_witness :
    eth_accounts none (some { origin := some RpcOrigin.internal }) = .ok []
    ∧ eth_accounts (some recSample)
        (some { origin := some RpcOrigin.internal }) = .ok ["0xAbC1"]
    ∧ eth_accounts (some recSample)
        (some { origin := some (RpcOrigin.web "https://app.example") })
      = .ok (if permissionLists (some recSample) "https://app.example" "0xAbC1"
             then ["0xAbC1"] else []) :=
  ⟨(eth_accounts_permission_gated none
      (some { origin := some RpcOrigin.internal }) "0xAbC1"
      "https://app.example" (by decide)).1 rfl,
   (eth_accounts_permission_gated (some recSample)
      (some { origin := some RpcOrigin.internal }) "0xAbC1"
      "https://app.example" (by decide)).2.1 rfl,
   (eth_accounts_permission_gated (some recSample)
      (some { origin := some (RpcOrigin.web "https://app.example") }) "0xAbC1"
      "https://app.example" (by decide)).2.2 rfl⟩

/-- Updating the chain of an existing entry rewrites exactly that
entry in the lookup. -/
theorem permLookup_map_setchain (ps : List (String × PermissionEntry))
    (o c : String) :
    permLookup (ps.map (fun p =>
        if p.1 = o then (p.1, { p.2 with chain := some c }) else p)) o
      = (permLookup ps o).map (fun e => { e with chain := some c }) := by
  induction ps with
  | nil => rfl
  | cons q ps ih =>
    by_cases hq : q.1 = o
    · simp [permLookup, List.find?_cons, hq]
    · simpa [permLookup, List.find?_cons, hq] using ih

/-- Looking up an origin appended to a map that does not contain it
finds the appended entry. -/
theorem permLookup_append_new (ps : List (String × PermissionEntry))
    (o : String) (e : PermissionEntry)
    (h : ps.find? (fun p => p.1 = o) = none) :
    permLookup (ps ++ [(o, e)]) o = some e := by
  simp [permLookup, List.find?_append, h]

/-- After permSetChain, the chain stored for the origin is the one
just set. -/
theorem chain_after_permSetChain (ps : List (String × PermissionEntry))
    (o c : String) :
    Option.bind (permLookup (permSetChain ps o c) o) (fun e => e.chain)
      = some c := by
  unfold permSetChain
  by_cases h : (ps.find? (fun p => p.1 = o)).isSome
  · rw [if_pos h, permLookup_map_setchain]
    cases hfind : ps.find? (fun p => p.1 = o) with
    | none => rw [hfind] at h; simp at h
    | some q => simp [permLookup, hfind]
  · rw [if_neg h,
      permLookup_append_new ps o _ (Option.not_isSome_iff_eq_none.mp h)]
    rfl

/-- C7: for a permitted web origin, wallet_switchEthereumChain with
the chain id already resolved for that origin succeeds as a strict
no-op (record unchanged, no events, in particular no chainChanged
and no confirmation window); with a different chain id it switches
the chain of the origin immediately, emitting only chainChanged. -/
theorem wallet_switchEthereumChain_noop_or_switch
    (env : NetworksEnv) (record : Option WalletRecord) (r : WalletRecord)
    (s a : String) (chainIdParameter : Nat)
    (hrec : record = some r) (hs : s ≠ "")
    (hcur : readCurrentAddress record = some a)
    (hperm : permissionLists record s a = true) :
    (chainIdParameter = getChainIdForOrigin env record s →
      wallet_switchEthereumChain env record
          (some { origin := some (RpcOrigin.web s) }) chainIdParameter
        = .ok (record, []))
    ∧ (chainIdParameter ≠ getChainIdForOrigin env record s →
      wallet_switchEthereumChain env record
          (some { origin := some (RpcOrigin.web s) }) chainIdParameter
        = .ok (some (recordSetChainForOrigin r (env.getChainById chainIdParameter) s),
               [WEvent.chainChanged (env.getChainById chainIdParameter) s])
      ∧ recordGetChainForOrigin
          (recordSetChainForOrigin r (env.getChainById chainIdParameter) s) s
        = env.getChainById chainIdParameter) := by
  subst hrec
  refine ⟨fun heq => ?_, fun hne => ⟨?_, ?_⟩⟩
  · simp [wallet_switchEthereumChain, hcur, allowedOrigin, hs, hperm,
      originKey, heq]
  · simp [wallet_switchEthereumChain, hcur, allowedOrigin, hs, hperm,
      originKey, hne, setChainForOrigin]
  · simp [recordGetChainForOrigin, recordSetChainForOrigin,
      chain_after_permSetChain]

/-- Witness for C7 at a concrete record and origin (resolved wire
chain id 137). -/
theorem wallet_switchEthereumChain_noop_or_switch_witness :
    wallet_switchEthereumChain netSample (some recSample)
        (some { origin := some (RpcOrigin.web "https://app.example") }) 137
      = .ok (some recSample, [])
    ∧ (wallet_switchEthereumChain netSample (some recSample)
          (some { origin := some (RpcOrigin.web "https://app.example") }) 1
        = .ok (some (recordSetChainForOrigin recSample
                 (netSample.getChainById 1) "https://app.example"),
               [WEvent.chainChanged (netSample.getChainById 1)
                 "https://app.example"])
      ∧ recordGetChainForOrigin
          (recordSetChainForOrigin recSample (netSample.getChainById 1)
            "https://app.example") "https://app.example"
        = netSample.getChainById 1) :=
  ⟨(wallet_switchEthereumChain_noop_or_switch netSample (some recSample)
      recSample "https://app.example" "0xAbC1" 137 rfl (by decide) rfl
      (by decide)).1 (by decide),
   (wallet_switchEthereumChain_noop_or_switch netSample (some recSample)
      recSample "https://app.example" "0xAbC1" 1 rfl (by decide) rfl
      (by decide)).2 (by decide)⟩

/-- Adding an address to an existing entry rewrites exactly that
entry in the lookup. -/
theorem permLookup_map_addaddr (ps : List (String × PermissionEntry))
    (o a : String) :
    permLookup (ps.map (fun p =>
        if p.1 = o then
          (p.1, { p.2 with addresses :=
                  if p.2.addresses.contains a then p.2.addresses
                  else p.2.addresses ++ [a] })
        else p)) o
      = (permLookup ps o).map (fun e =>
          { e with addresses :=
              if e.addresses.contains a then e.addresses
              else e.addresses ++ [a] }) := by
  induction ps with
  | nil => rfl
  | cons q ps ih =>
    by_cases hq : q.1 = o
    · simp [permLookup, List.find?_cons, hq]
    · simpa [permLookup, List.find?_cons, hq] using ih

/-- After recordAddPermission, the permissions map lists the added
address for the origin. -/
theorem permissionLists_after_add (r : WalletRecord) (o a : String) :
    permissionLists (some (recordAddPermission r o a)) o a = true := by
  simp only [permissionLists, recordAddPermission]
  unfold permAddAddress
  by_cases h : (r.permissions.find? (fun p => p.1 = o)).isSome
  · rw [if_pos h, permLookup_map_addaddr]
    cases hfind : permLookup r.permissions o with
    | none =>
      exfalso
      have hnone : r.permissions.find? (fun p => p.1 = o) = none :=
        Option.map_eq_none.mp hfind
      rw [hnone] at h
      simp at h
    | some e =>
      by_cases hm : a ∈ e.addresses <;> simp [hm]
  · rw [if_neg h,
      permLookup_append_new _ o _ (Option.not_isSome_iff_eq_none.mp h)]
    simp

/-- C10: on approval of eth_requestAccounts with an approved address
that differs (case-insensitive) from the current address, the
current address is switched first and only then is the origin
permission recorded — the currentAddressChange event precedes
permissionsUpdated and the final record carries the approved address
as current; with an approved address equal to the current one, the
current address is left unchanged and only the permission is
recorded. -/
theorem eth_requestAccounts_approval_switch_then_grant
    (record : Option WalletRecord) (r : WalletRecord)
    (webOrigin address cur : String)
    (hrec : record = some r)
    (hcur : readCurrentAddress record = some cur)
    (haddr : address ≠ "")
    (howned : r.walletManager.groups.any (fun g =>
        g.walletContainer.wallets.any (fun w =>
          normalizeAddress w.address = normalizeAddress address)) = true) :
    (normalizeAddress address ≠ normalizeAddress cur →
      handleRequestAccountsApproval record webOrigin address
        = .ok (recordAddPermission { r with walletManager := { r.walletManager with currentAddress := some address } } webOrigin address,
               [WEvent.currentAddressChange [address],
                WEvent.permissionsUpdated])
      ∧ (recordAddPermission { r with walletManager := { r.walletManager with currentAddress := some address } } webOrigin address).walletManager.currentAddress
          = some address
      ∧ permissionLists (some (recordAddPermission { r with walletManager := { r.walletManager with currentAddress := some address } } webOrigin address)) webOrigin address
          = true)
    ∧ (normalizeAddress address = normalizeAddress cur →
      handleRequestAccountsApproval record webOrigin address
        = .ok (recordAddPermission r webOrigin address,
               [WEvent.permissionsUpdated])
      ∧ (recordAddPermission r webOrigin address).walletManager.currentAddress
          = r.walletManager.currentAddress
      ∧ permissionLists (some (recordAddPermission r webOrigin address)) webOrigin address
          = true) := by
  subst hrec
  constructor
  · intro hne
    refine ⟨?_, rfl, permissionLists_after_add _ _ _⟩
    simp [handleRequestAccountsApproval, haddr, hcur, hne,
      setCurrentAddressMethod, verifyInternalOrigin,
      recordSetCurrentAddress, howned, acceptOrigin, strOrNull,
      recordAddPermission]
  · intro heq
    refine ⟨?_, rfl, permissionLists_after_add _ _ _⟩
    simp [handleRequestAccountsApproval, haddr, hcur, heq, acceptOrigin]

/-- Witness for C10 at a concrete two-address record: approving the
non-current owned address and approving the current address. -/
theorem eth_requestAccounts_approval_switch_then_grant_witness :
    (handleRequestAccountsApproval (some recSample2) "https://new.example"
        "0xDdD2"
      = .ok (recordAddPermission { recSample2 with walletManager := { recSample2.walletManager with currentAddress := some "0xDdD2" } } "https://new.example" "0xDdD2",
             [WEvent.currentAddressChange ["0xDdD2"],
              WEvent.permissionsUpdated])
    ∧ (recordAddPermission { recSample2 with walletManager := { recSample2.walletManager with currentAddress := some "0xDdD2" } } "https://new.example" "0xDdD2").walletManager.currentAddress
        = some "0xDdD2"
    ∧ permissionLists (some (recordAddPermission { recSample2 with walletManager := { recSample2.walletManager with currentAddress := some "0xDdD2" } } "https://new.example" "0xDdD2")) "https://new.example" "0xDdD2"
        = true)
    ∧ (handleRequestAccountsApproval (some recSample2) "https://new.example"
        "0xAbC1"
      = .ok (recordAddPermission recSample2 "https://new.example" "0xAbC1",
             [WEvent.permissionsUpdated])
    ∧ (recordAddPermission recSample2 "https://new.example" "0xAbC1").walletManager.currentAddress
        = recSample2.walletManager.currentAddress
    ∧ permissionLists (some (recordAddPermission recSample2 "https://new.example" "0xAbC1")) "https://new.example" "0xAbC1"
        = true) :=
  ⟨(eth_requestAccounts_approval_switch_then_grant (some recSample2)
      recSample2 "https://new.example" "0xDdD2" "0xAbC1" rfl rfl
      (by decide) (by decide)).1 (by decide),
   (eth_requestAccounts_approval_switch_then_grant (some recSample2)
      recSample2 "https://new.example" "0xAbC1" "0xAbC1" rfl rfl
      (by decide) (by decide)).2 (by decide)⟩
